import Mathlib

open Real

/-!
Shallow embedding of the spirogen repository (src/api/src): the 2D
vector/transform algebra (maths.rs), the parametric shapes (shapes.rs), the
rolling-contact solver and pen projector (wheels.rs), and the request
handler (main.rs).  The f64 values of the source are modelled as real
numbers.  A second model with the IEEE special values (NaN and the two
infinities) follows further below, for the claims that are specifically
about those values.
-/

/-- Coordinate (maths.rs): holds a 2D coordinate. -/
@[ext]
structure Coordinate where
  x : ℝ
  y : ℝ

/-- Transform2D (maths.rs): matrix transform for a 2D coordinate, the matrix
indexed by (row, col). -/
@[ext]
structure Transform2D where
  matrix : Fin 3 → Fin 3 → ℝ

/-- Coordinate::null (maths.rs): the null vector. -/
def Coordinate.null : Coordinate := ⟨0, 0⟩

/-- impl Add for Coordinate (maths.rs). -/
instance : Add Coordinate := ⟨fun a b => ⟨a.x + b.x, a.y + b.y⟩⟩

/-- impl Mul for Coordinate with an f64 scalar (maths.rs). -/
instance : HMul Coordinate ℝ Coordinate := ⟨fun a k => ⟨a.x * k, a.y * k⟩⟩

/-- impl Div for Coordinate by an f64 scalar (maths.rs): self * (1.0 / rhs). -/
noncomputable instance : HDiv Coordinate ℝ Coordinate := ⟨fun a k => a * ((1 : ℝ) / k)⟩

/-- impl Sub for Coordinate (maths.rs): self + (rhs * -1.0). -/
instance : Sub Coordinate := ⟨fun a b => a + b * (-1 : ℝ)⟩

/-- Coordinate::magnitude (maths.rs): (x.powf(2.0) + y.powf(2.0)).sqrt(). -/
noncomputable def Coordinate.magnitude (c : Coordinate) : ℝ :=
  Real.sqrt (c.x ^ 2 + c.y ^ 2)

/-- Coordinate::normalised (maths.rs): divide both components by the
magnitude. -/
noncomputable def Coordinate.normalised (c : Coordinate) : Coordinate :=
  ⟨c.x / c.magnitude, c.y / c.magnitude⟩

/-- Coordinate::heading (maths.rs): self.y.atan2(self.x).  The two-argument
arctangent with range (-pi, pi] is Complex.arg of x + y i. -/
noncomputable def Coordinate.heading (c : Coordinate) : ℝ :=
  Complex.arg ⟨c.x, c.y⟩

/-- Transform2D::identity (maths.rs). -/
def Transform2D.identity : Transform2D :=
  ⟨![![1, 0, 0], ![0, 1, 0], ![0, 0, 1]]⟩

/-- Transform2D::null (maths.rs): a matrix full of zeroes. -/
def Transform2D.nullT : Transform2D :=
  ⟨![![0, 0, 0], ![0, 0, 0], ![0, 0, 0]]⟩

/-- Transform2D::rotation_xy (maths.rs): a rotation in the x-y plane. -/
noncomputable def Transform2D.rotation_xy (θ : ℝ) : Transform2D :=
  ⟨![![Real.cos θ, -Real.sin θ, 0], ![Real.sin θ, Real.cos θ, 0], ![0, 0, 1]]⟩

/-- Transform2D::translation (maths.rs): a translation in the x-y plane. -/
def Transform2D.translation (dr : Coordinate) : Transform2D :=
  ⟨![![1, 0, dr.x], ![0, 1, dr.y], ![0, 0, 1]]⟩

/-- Matrix-vector multiplication (maths.rs): only the top two rows are read,
and the point's homogeneous coordinate is treated as 1. -/
instance : HMul Transform2D Coordinate Coordinate :=
  ⟨fun t c =>
    ⟨t.matrix 0 0 * c.x + t.matrix 0 1 * c.y + t.matrix 0 2,
     t.matrix 1 0 * c.x + t.matrix 1 1 * c.y + t.matrix 1 2⟩⟩

/-- Matrix-matrix multiplication (maths.rs): the accumulation loop over k,
unrolled (the accumulator starts from Transform2D::null, i.e. from 0). -/
instance : Mul Transform2D :=
  ⟨fun a b =>
    ⟨fun i j =>
      0 + a.matrix i 0 * b.matrix 0 j + a.matrix i 1 * b.matrix 1 j +
        a.matrix i 2 * b.matrix 2 j⟩⟩

/-- Coordinate::rotated (maths.rs): rotate by the angle theta. -/
noncomputable def Coordinate.rotated (c : Coordinate) (θ : ℝ) : Coordinate :=
  Transform2D.rotation_xy θ * c

/-- The transforms the program builds: identity, rotation and translation
constructors, and matrix products of these. -/
inductive Transform2D.Built : Transform2D → Prop
  | identity : Transform2D.Built Transform2D.identity
  | rotation (θ : ℝ) : Transform2D.Built (Transform2D.rotation_xy θ)
  | translation (v : Coordinate) :
      Transform2D.Built (Transform2D.translation v)
  | mul {A B : Transform2D} : Transform2D.Built A → Transform2D.Built B →
      Transform2D.Built (A * B)

/-- Truncation toward zero, as used by Rust's f64 remainder operator. -/
noncomputable def rtrunc (x : ℝ) : ℤ :=
  if 0 ≤ x then ⌊x⌋ else ⌈x⌉

/-- Rust's % on f64 (fmod): x - y * trunc (x / y), exact in real
arithmetic. -/
noncomputable def rustRem (x y : ℝ) : ℝ :=
  x - y * (rtrunc (x / y) : ℝ)

/-- The two shapes of shapes.rs, as a closed tagged variant: Circle with its
radius, and Rod with its major_radius and aspect ratio (field aspect_ratio
in the source). -/
inductive Shape where
  | Circle (radius : ℝ)
  | Rod (major_radius : ℝ) (aspect : ℝ)

/-- The parameter ranges under which the spec quantifies its shape claims:
a positive circle radius; a positive rod major radius with aspect ratio
strictly between 0 and 1. -/
def Shape.Valid : Shape → Prop
  | .Circle r => 0 < r
  | .Rod m a => 0 < m ∧ 0 < a ∧ a < 1

/-- Rod::side_length (shapes.rs): 2.0 * major_radius * (1.0 - aspect). -/
def rodSideLength (m a : ℝ) : ℝ := 2 * m * (1 - a)

/-- Rod::cap_radius (shapes.rs): aspect * 2.0 * major_radius. -/
def rodCapRadius (m a : ℝ) : ℝ := a * 2 * m

/-- Rod cap_length (shapes.rs, local in Rod::parametric): PI * cap_radius. -/
noncomputable def rodCapLength (m a : ℝ) : ℝ := π * rodCapRadius m a

/-- Rod::parametric, first branch (shapes.rs): right circular cap, with
alpha = t / cap_radius. -/
noncomputable def rodCapRight (m a t : ℝ) : Coordinate :=
  ⟨-rodCapRadius m a * Real.sin (t / rodCapRadius m a) - rodSideLength m a,
   rodCapRadius m a * Real.cos (t / rodCapRadius m a)⟩

/-- Rod::parametric, second branch (shapes.rs): bottom straight edge. -/
noncomputable def rodEdgeBottom (m a t : ℝ) : Coordinate :=
  ⟨-rodSideLength m a + t - π * rodCapRadius m a, -rodCapRadius m a⟩

/-- Rod::parametric, third branch (shapes.rs): left circular cap, with
alpha = (t - 2.0 * side_length) / cap_radius. -/
noncomputable def rodCapLeft (m a t : ℝ) : Coordinate :=
  ⟨-rodCapRadius m a * Real.sin ((t - 2 * rodSideLength m a) / rodCapRadius m a)
      + rodSideLength m a,
   rodCapRadius m a * Real.cos ((t - 2 * rodSideLength m a) / rodCapRadius m a)⟩

/-- Rod::parametric, fourth branch (shapes.rs): top straight edge. -/
noncomputable def rodEdgeTop (m a t : ℝ) : Coordinate :=
  ⟨3 * rodSideLength m a - t + 2 * π * rodCapRadius m a, rodCapRadius m a⟩

/-- Rod::parametric branch dispatch (shapes.rs) on the wrapped parameter t,
0 <= t <= perimeter. -/
noncomputable def rodFromT (m a t : ℝ) : Coordinate :=
  if t < rodCapLength m a then rodCapRight m a t
  else if t < rodCapLength m a + 2 * rodSideLength m a then rodEdgeBottom m a t
  else if t < 2 * rodCapLength m a + 2 * rodSideLength m a then rodCapLeft m a t
  else rodEdgeTop m a t

/-- Rod::perimeter (shapes.rs): 2.0 * PI * cap_radius + 4.0 * side_length. -/
noncomputable def rodPerimeter (m a : ℝ) : ℝ :=
  2 * π * rodCapRadius m a + 4 * rodSideLength m a

/-- Rod::parametric wrapping step (shapes.rs): make t = 0 correspond with the
centre of a straight edge, i.e. t = (perimeter + s - side_length) % perimeter,
plus perimeter if that remainder is negative. -/
noncomputable def rodWrap (m a s : ℝ) : ℝ :=
  let t := rustRem (rodPerimeter m a + s - rodSideLength m a) (rodPerimeter m a)
  if t < 0 then t + rodPerimeter m a else t

/-- ParametricShape::perimeter for the two variants (shapes.rs). -/
noncomputable def Shape.perimeter : Shape → ℝ
  | .Circle r => 2 * π * r
  | .Rod m a => rodPerimeter m a

/-- ParametricShape::parametric for the two variants (shapes.rs).  For the
circle, t = (s / perimeter) % 1.0, plus 1 if negative. -/
noncomputable def Shape.parametric : Shape → ℝ → Coordinate
  | .Circle r, s =>
    let t0 := rustRem (s / (2 * π * r)) 1
    let t := if t0 < 0 then t0 + 1 else t0
    ⟨r * Real.cos (2 * π * t), r * Real.sin (2 * π * t)⟩
  | .Rod m a, s => rodFromT m a (rodWrap m a s)

/-- ParametricShape::min_radius (shapes.rs); valued in EReal so that the
infinite Rod max_radius is representable alongside. -/
def Shape.min_radius : Shape → EReal
  | .Circle r => (r : EReal)
  | .Rod m a => ((rodCapRadius m a : ℝ) : EReal)

/-- ParametricShape::max_radius (shapes.rs): the radius for a circle, and
f64::INFINITY for a rod (straight edges have zero curvature). -/
def Shape.max_radius : Shape → EReal
  | .Circle r => (r : EReal)
  | .Rod _ _ => ⊤

/-- The finite-difference step eps = 0.0001 of ParametricShape::normal_at
(shapes.rs). -/
def fdEps : ℝ := 0.0001

/-- ParametricShape::normal_at default method (shapes.rs): finite-difference
tangent parametric(s) - parametric(s - eps), rotated by -PI * 0.5,
normalised. -/
noncomputable def Shape.normal_at (sh : Shape) (s : ℝ) : Coordinate :=
  ((sh.parametric s - sh.parametric (s - fdEps)).rotated (-π * 0.5)).normalised

/-- transform_for_wheel (wheels.rs): the rolling-contact solver. -/
noncomputable def transform_for_wheel (wheel guide : Shape) (inside : Bool)
    (s : ℝ) : Transform2D :=
  let s_wheel := (if inside then (1 : ℝ) else -1) * s
  let norm_guide := guide.normal_at s
  let norm_wheel := wheel.normal_at s_wheel
  let theta := norm_guide.heading - norm_wheel.heading +
    (if inside then (0 : ℝ) else π)
  Transform2D.translation
      (Transform2D.rotation_xy (π + theta) * wheel.parametric s_wheel) *
    (Transform2D.translation (guide.parametric s) *
      (Transform2D.rotation_xy theta * Transform2D.identity))

/-- Rust f64::clamp(lo, hi): lo if self < lo, hi if self > hi, else self. -/
noncomputable def rustClamp (x lo hi : ℝ) : ℝ :=
  if x < lo then lo else if x > hi then hi else x

/-- transform_for_pen (wheels.rs): a pure translation to the pen tip. -/
noncomputable def transform_for_pen (wheel : Shape) (theta radius : ℝ) :
    Transform2D :=
  Transform2D.translation
    (wheel.parametric (0.5 * theta / π * wheel.perimeter) *
      rustClamp radius 0 1)

/-- ShapeType (main.rs): the shape kind named in a request. -/
inductive ShapeType where
  | Circle
  | Rod
deriving DecidableEq

/-- ShapeType::needs_param (main.rs). -/
def ShapeType.needs_param : ShapeType → Bool
  | .Circle => false
  | .Rod => true

/-- ShapeType::to_shape (main.rs): build the shape from radius and the
optional extra parameter (used only by Rod). -/
def ShapeType.to_shape : ShapeType → ℝ → ℝ → Shape
  | .Circle, radius, _ => .Circle radius
  | .Rod, radius, param => .Rod radius param

/-- Debug name of a ShapeType, as interpolated into error messages. -/
def ShapeType.typeName : ShapeType → String
  | .Circle => "Circle"
  | .Rod => "Rod"

/-- PatternQuery (main.rs): the query parameters required to create a
pattern. -/
structure PatternQuery where
  guide : ShapeType
  wheel : ShapeType
  guide_radius : ℝ
  wheel_radius : ℝ
  pen_radius : ℝ
  pen_theta : ℝ
  guide_param : Option ℝ
  wheel_param : Option ℝ
  inside : Option Bool

/-- route_pattern (main.rs): validation followed by the 300-point pattern
loop, with the transport layer stripped (Err Json becomes Except.error). -/
noncomputable def route_pattern (q : PatternQuery) :
    Except String (List Coordinate) :=
  if q.guide_param.isNone && q.guide.needs_param then
    Except.error ("guide type " ++ q.guide.typeName ++ " requires guide_param")
  else if q.wheel_param.isNone && q.wheel.needs_param then
    Except.error ("wheel type " ++ q.wheel.typeName ++ " requires wheel_param")
  else if q.guide_radius ≤ 0 ∨ q.wheel_radius ≤ 0 then
    Except.error "non-positive radius supplied"
  else if q.guide_param.getD 1 ≤ 0 ∨ q.wheel_param.getD 1 ≤ 0 then
    Except.error "non-positive shape parameter supplied"
  else if q.pen_radius < 0 ∨ q.pen_radius > 1 then
    Except.error "pen_radius is outside the range [0, 1]"
  else if q.pen_theta < 0 ∨ q.pen_theta > 2 * π then
    Except.error "pen_theta is outside the range [0, 2PI]"
  else
    let guide := q.guide.to_shape q.guide_radius (q.guide_param.getD 1)
    let wheel := q.wheel.to_shape q.wheel_radius (q.wheel_param.getD 1)
    let inside := q.inside.getD false
    if inside = true ∧ guide.min_radius < wheel.max_radius then
      Except.error "wheel does not fit inside guide"
    else
      Except.ok ((List.range 300).map fun (i : ℕ) =>
        let s := guide.perimeter * 0.01 * (i : ℝ)
        (transform_for_wheel wheel guide inside s *
          transform_for_pen wheel q.pen_theta q.pen_radius) * Coordinate.null)

/-- The request conditions under which the spec says the pattern operation
fails, transcribed from the spec's words: a Rod-kind shape missing its shape
parameter, a non-positive guide or wheel radius, a non-positive supplied
shape parameter, pen_radius outside [0, 1], pen_theta outside [0, 2 pi], or
inside with the wheel's maximum curvature radius above the guide's
minimum. -/
def specViolation (q : PatternQuery) : Prop :=
  (q.guide = ShapeType.Rod ∧ q.guide_param = none) ∨
  (q.wheel = ShapeType.Rod ∧ q.wheel_param = none) ∨
  q.guide_radius ≤ 0 ∨ q.wheel_radius ≤ 0 ∨
  q.guide_param.getD 1 ≤ 0 ∨ q.wheel_param.getD 1 ≤ 0 ∨
  q.pen_radius < 0 ∨ 1 < q.pen_radius ∨
  q.pen_theta < 0 ∨ 2 * π < q.pen_theta ∨
  (q.inside.getD false = true ∧
    (q.guide.to_shape q.guide_radius (q.guide_param.getD 1)).min_radius <
      (q.wheel.to_shape q.wheel_radius (q.wheel_param.getD 1)).max_radius)

/-!
Floating-point model.  The claims about IEEE special values need f64 to be
more than ℝ: Fp is ℝ extended with the two infinities and NaN, with the
source's operations given their IEEE semantics (every comparison involving
NaN is false; NaN propagates through arithmetic).  The geometry pipeline is
repeated over Fp so that route_pattern can be modelled end to end on NaN
inputs.
-/

/-- An f64 value: a finite real, one of the two infinities, or NaN. -/
inductive Fp where
  | num (x : ℝ)
  | inf
  | ninf
  | nan

/-- IEEE less-than on f64: false whenever either operand is NaN. -/
def Fp.lt : Fp → Fp → Prop
  | .num a, .num b => a < b
  | .num _, .inf => True
  | .ninf, .num _ => True
  | .ninf, .inf => True
  | _, _ => False

/-- IEEE less-or-equal on f64: false whenever either operand is NaN. -/
def Fp.le : Fp → Fp → Prop
  | .num a, .num b => a ≤ b
  | .num _, .inf => True
  | .inf, .inf => True
  | .ninf, .num _ => True
  | .ninf, .inf => True
  | .ninf, .ninf => True
  | _, _ => False

noncomputable instance (a b : Fp) : Decidable (Fp.lt a b) :=
  Classical.propDecidable _

noncomputable instance (a b : Fp) : Decidable (Fp.le a b) :=
  Classical.propDecidable _

/-- IEEE negation on f64. -/
def Fp.neg : Fp → Fp
  | .num a => .num (-a)
  | .inf => .ninf
  | .ninf => .inf
  | .nan => .nan

/-- IEEE addition on f64 (signed zeros are not modelled). -/
def Fp.add : Fp → Fp → Fp
  | .nan, _ => .nan
  | _, .nan => .nan
  | .num a, .num b => .num (a + b)
  | .num _, .inf => .inf
  | .num _, .ninf => .ninf
  | .inf, .num _ => .inf
  | .ninf, .num _ => .ninf
  | .inf, .inf => .inf
  | .ninf, .ninf => .ninf
  | .inf, .ninf => .nan
  | .ninf, .inf => .nan

/-- IEEE subtraction on f64. -/
def Fp.sub (a b : Fp) : Fp := Fp.add a (Fp.neg b)

/-- IEEE multiplication on f64. -/
noncomputable def Fp.mul : Fp → Fp → Fp
  | .nan, _ => .nan
  | _, .nan => .nan
  | .num a, .num b => .num (a * b)
  | .num a, .inf => if 0 < a then .inf else if a < 0 then .ninf else .nan
  | .num a, .ninf => if 0 < a then .ninf else if a < 0 then .inf else .nan
  | .inf, .num b => if 0 < b then .inf else if b < 0 then .ninf else .nan
  | .ninf, .num b => if 0 < b then .ninf else if b < 0 then .inf else .nan
  | .inf, .inf => .inf
  | .ninf, .ninf => .inf
  | .inf, .ninf => .ninf
  | .ninf, .inf => .ninf

/-- IEEE division on f64 (division by the unsigned zero of this model gives
the infinity matching the numerator's sign). -/
noncomputable def Fp.div : Fp → Fp → Fp
  | .nan, _ => .nan
  | _, .nan => .nan
  | .num a, .num b =>
    if b = 0 then (if a = 0 then .nan else if 0 < a then .inf else .ninf)
    else .num (a / b)
  | .num _, .inf => .num 0
  | .num _, .ninf => .num 0
  | .inf, .num b => if 0 ≤ b then .inf else .ninf
  | .ninf, .num b => if 0 ≤ b then .ninf else .inf
  | _, _ => .nan

/-- IEEE square root on f64. -/
noncomputable def Fp.sqrt : Fp → Fp
  | .num a => if a < 0 then .nan else .num (Real.sqrt a)
  | .inf => .inf
  | _ => .nan

/-- f64::cos: NaN on NaN and on the infinities. -/
noncomputable def Fp.cos : Fp → Fp
  | .num a => .num (Real.cos a)
  | _ => .nan

/-- f64::sin: NaN on NaN and on the infinities. -/
noncomputable def Fp.sin : Fp → Fp
  | .num a => .num (Real.sin a)
  | _ => .nan

/-- f64::powf with exponent 2.0, as used by Coordinate::magnitude. -/
noncomputable def Fp.pow2 : Fp → Fp
  | .num a => .num (a ^ 2)
  | .inf => .inf
  | .ninf => .inf
  | .nan => .nan

/-- f64::atan2 (y.atan2 x), including its IEEE special cases. -/
noncomputable def Fp.atan2 : Fp → Fp → Fp
  | .num a, .num b => .num (Complex.arg ⟨b, a⟩)
  | .num _, .inf => .num 0
  | .num a, .ninf => if 0 ≤ a then .num π else .num (-π)
  | .inf, .num _ => .num (π / 2)
  | .ninf, .num _ => .num (-(π / 2))
  | .inf, .inf => .num (π / 4)
  | .inf, .ninf => .num (3 * π / 4)
  | .ninf, .inf => .num (-(π / 4))
  | .ninf, .ninf => .num (-(3 * π / 4))
  | _, _ => .nan

/-- Rust's % on f64 with IEEE special values. -/
noncomputable def Fp.rem : Fp → Fp → Fp
  | .num a, .num b => if b = 0 then .nan else .num (rustRem a b)
  | .num a, .inf => .num a
  | .num a, .ninf => .num a
  | _, _ => .nan

/-- f64::clamp, written with the source's comparisons so that NaN is
returned unchanged. -/
noncomputable def Fp.clamp (x lo hi : Fp) : Fp :=
  if Fp.lt x lo then lo else if Fp.lt hi x then hi else x

/-- Coordinate over the floating-point model. -/
structure CoordF where
  x : Fp
  y : Fp

/-- Coordinate::null over Fp. -/
def CoordF.null : CoordF := ⟨.num 0, .num 0⟩

/-- impl Add for Coordinate, over Fp. -/
def CoordF.add (a b : CoordF) : CoordF := ⟨Fp.add a.x b.x, Fp.add a.y b.y⟩

/-- impl Mul for Coordinate with an f64 scalar, over Fp. -/
noncomputable def CoordF.smul (a : CoordF) (k : Fp) : CoordF :=
  ⟨Fp.mul a.x k, Fp.mul a.y k⟩

/-- impl Sub for Coordinate, over Fp: self + (rhs * -1.0). -/
noncomputable def CoordF.subF (a b : CoordF) : CoordF :=
  a.add (b.smul (.num (-1)))

/-- Coordinate::magnitude over Fp. -/
noncomputable def CoordF.magnitude (c : CoordF) : Fp :=
  Fp.sqrt (Fp.add (Fp.pow2 c.x) (Fp.pow2 c.y))

/-- Coordinate::normalised over Fp. -/
noncomputable def CoordF.normalised (c : CoordF) : CoordF :=
  ⟨Fp.div c.x c.magnitude, Fp.div c.y c.magnitude⟩

/-- Coordinate::heading over Fp. -/
noncomputable def CoordF.heading (c : CoordF) : Fp := Fp.atan2 c.y c.x

/-- Transform2D over the floating-point model. -/
structure TransformF where
  matrix : Fin 3 → Fin 3 → Fp

/-- Transform2D::identity over Fp. -/
def TransformF.identity : TransformF :=
  ⟨![![.num 1, .num 0, .num 0], ![.num 0, .num 1, .num 0],
     ![.num 0, .num 0, .num 1]]⟩

/-- Transform2D::rotation_xy over Fp. -/
noncomputable def TransformF.rotation_xy (θ : Fp) : TransformF :=
  ⟨![![Fp.cos θ, Fp.neg (Fp.sin θ), .num 0],
     ![Fp.sin θ, Fp.cos θ, .num 0],
     ![.num 0, .num 0, .num 1]]⟩

/-- Transform2D::translation over Fp. -/
def TransformF.translation (dr : CoordF) : TransformF :=
  ⟨![![.num 1, .num 0, dr.x], ![.num 0, .num 1, dr.y],
     ![.num 0, .num 0, .num 1]]⟩

/-- Matrix-vector multiplication over Fp. -/
noncomputable def TransformF.applyC (t : TransformF) (c : CoordF) : CoordF :=
  ⟨Fp.add (Fp.add (Fp.mul (t.matrix 0 0) c.x) (Fp.mul (t.matrix 0 1) c.y))
      (t.matrix 0 2),
   Fp.add (Fp.add (Fp.mul (t.matrix 1 0) c.x) (Fp.mul (t.matrix 1 1) c.y))
      (t.matrix 1 2)⟩

/-- Matrix-matrix multiplication over Fp: the unrolled accumulation loop,
starting from 0 as in the source. -/
noncomputable def TransformF.mulT (a b : TransformF) : TransformF :=
  ⟨fun i j =>
    Fp.add
      (Fp.add (Fp.add (.num 0) (Fp.mul (a.matrix i 0) (b.matrix 0 j)))
        (Fp.mul (a.matrix i 1) (b.matrix 1 j)))
      (Fp.mul (a.matrix i 2) (b.matrix 2 j))⟩

/-- Coordinate::rotated over Fp. -/
noncomputable def CoordF.rotated (c : CoordF) (θ : Fp) : CoordF :=
  TransformF.applyC (TransformF.rotation_xy θ) c

/-- The two shapes over the floating-point model. -/
inductive ShapeF where
  | Circle (radius : Fp)
  | Rod (major_radius : Fp) (aspect : Fp)

/-- Rod::side_length over Fp. -/
noncomputable def sideLengthF (m a : Fp) : Fp :=
  Fp.mul (Fp.mul (.num 2) m) (Fp.sub (.num 1) a)

/-- Rod::cap_radius over Fp. -/
noncomputable def capRadiusF (m a : Fp) : Fp :=
  Fp.mul (Fp.mul a (.num 2)) m

/-- ParametricShape::perimeter over Fp. -/
noncomputable def ShapeF.perimeterF : ShapeF → Fp
  | .Circle r => Fp.mul (.num (2 * π)) r
  | .Rod m a =>
    Fp.add (Fp.mul (.num (2 * π)) (capRadiusF m a))
      (Fp.mul (.num 4) (sideLengthF m a))

/-- ParametricShape::parametric over Fp. -/
noncomputable def ShapeF.parametricF : ShapeF → Fp → CoordF
  | .Circle r, s =>
    let t0 := Fp.rem (Fp.div s (Fp.mul (.num (2 * π)) r)) (.num 1)
    let t := if Fp.lt t0 (.num 0) then Fp.add t0 (.num 1) else t0
    ⟨Fp.mul r (Fp.cos (Fp.mul (.num (2 * π)) t)),
     Fp.mul r (Fp.sin (Fp.mul (.num (2 * π)) t))⟩
  | .Rod m a, s =>
    let sl := sideLengthF m a
    let cr := capRadiusF m a
    let cl := Fp.mul (.num π) cr
    let perim := ShapeF.perimeterF (.Rod m a)
    let t0 := Fp.rem (Fp.sub (Fp.add perim s) sl) perim
    let t := if Fp.lt t0 (.num 0) then Fp.add t0 perim else t0
    if Fp.lt t cl then
      ⟨Fp.sub (Fp.mul (Fp.neg cr) (Fp.sin (Fp.div t cr))) sl,
       Fp.mul cr (Fp.cos (Fp.div t cr))⟩
    else if Fp.lt t (Fp.add cl (Fp.mul (.num 2) sl)) then
      ⟨Fp.sub (Fp.add (Fp.neg sl) t) (Fp.mul (.num π) cr), Fp.neg cr⟩
    else if Fp.lt t (Fp.add (Fp.mul (.num 2) cl) (Fp.mul (.num 2) sl)) then
      ⟨Fp.add (Fp.mul (Fp.neg cr) (Fp.sin (Fp.div (Fp.sub t (Fp.mul (.num 2) sl)) cr))) sl,
       Fp.mul cr (Fp.cos (Fp.div (Fp.sub t (Fp.mul (.num 2) sl)) cr))⟩
    else
      ⟨Fp.add (Fp.sub (Fp.mul (.num 3) sl) t) (Fp.mul (.num (2 * π)) cr), cr⟩

/-- ParametricShape::min_radius over Fp. -/
noncomputable def ShapeF.min_radiusF : ShapeF → Fp
  | .Circle r => r
  | .Rod m a => capRadiusF m a

/-- ParametricShape::max_radius over Fp: f64::INFINITY for Rod. -/
def ShapeF.max_radiusF : ShapeF → Fp
  | .Circle r => r
  | .Rod _ _ => .inf

/-- ParametricShape::normal_at over Fp. -/
noncomputable def ShapeF.normal_atF (sh : ShapeF) (s : Fp) : CoordF :=
  (((sh.parametricF s).subF (sh.parametricF (Fp.sub s (.num fdEps)))).rotated
    (.num (-π * 0.5))).normalised

/-- transform_for_wheel over Fp. -/
noncomputable def transform_for_wheelF (wheel guide : ShapeF) (inside : Bool)
    (s : Fp) : TransformF :=
  let s_wheel := Fp.mul (if inside then Fp.num 1 else Fp.num (-1)) s
  let norm_guide := guide.normal_atF s
  let norm_wheel := wheel.normal_atF s_wheel
  let theta := Fp.add (Fp.sub norm_guide.heading norm_wheel.heading)
    (if inside then Fp.num 0 else Fp.num π)
  TransformF.mulT
    (TransformF.translation
      ((TransformF.rotation_xy (Fp.add (.num π) theta)).applyC
        (wheel.parametricF s_wheel)))
    (TransformF.mulT (TransformF.translation (guide.parametricF s))
      (TransformF.mulT (TransformF.rotation_xy theta) TransformF.identity))

/-- transform_for_pen over Fp. -/
noncomputable def transform_for_penF (wheel : ShapeF) (theta radius : Fp) :
    TransformF :=
  TransformF.translation
    ((wheel.parametricF
        (Fp.mul (Fp.div (Fp.mul (.num 0.5) theta) (.num π))
          wheel.perimeterF)).smul
      (Fp.clamp radius (.num 0) (.num 1)))

/-- ShapeType::to_shape over Fp. -/
def ShapeType.to_shapeF : ShapeType → Fp → Fp → ShapeF
  | .Circle, radius, _ => .Circle radius
  | .Rod, radius, param => .Rod radius param

/-- PatternQuery over the floating-point model. -/
structure PatternQueryF where
  guide : ShapeType
  wheel : ShapeType
  guide_radius : Fp
  wheel_radius : Fp
  pen_radius : Fp
  pen_theta : Fp
  guide_param : Option Fp
  wheel_param : Option Fp
  inside : Option Bool

/-- route_pattern over the floating-point model: identical control flow to
route_pattern, with every comparison given its IEEE semantics. -/
noncomputable def route_patternF (q : PatternQueryF) :
    Except String (List CoordF) :=
  if q.guide_param.isNone && q.guide.needs_param then
    Except.error ("guide type " ++ q.guide.typeName ++ " requires guide_param")
  else if q.wheel_param.isNone && q.wheel.needs_param then
    Except.error ("wheel type " ++ q.wheel.typeName ++ " requires wheel_param")
  else if Fp.le q.guide_radius (.num 0) ∨ Fp.le q.wheel_radius (.num 0) then
    Except.error "non-positive radius supplied"
  else if Fp.le (q.guide_param.getD (.num 1)) (.num 0) ∨
      Fp.le (q.wheel_param.getD (.num 1)) (.num 0) then
    Except.error "non-positive shape parameter supplied"
  else if Fp.lt q.pen_radius (.num 0) ∨ Fp.lt (.num 1) q.pen_radius then
    Except.error "pen_radius is outside the range [0, 1]"
  else if Fp.lt q.pen_theta (.num 0) ∨ Fp.lt (.num (2 * π)) q.pen_theta then
    Except.error "pen_theta is outside the range [0, 2PI]"
  else
    let guide := q.guide.to_shapeF q.guide_radius (q.guide_param.getD (.num 1))
    let wheel := q.wheel.to_shapeF q.wheel_radius (q.wheel_param.getD (.num 1))
    let inside := q.inside.getD false
    if inside = true ∧ Fp.lt guide.min_radiusF wheel.max_radiusF then
      Except.error "wheel does not fit inside guide"
    else
      Except.ok ((List.range 300).map fun (i : ℕ) =>
        let s := Fp.mul (Fp.mul guide.perimeterF (.num 0.01)) (.num (i : ℝ))
        (TransformF.mulT (transform_for_wheelF wheel guide inside s)
          (transform_for_penF wheel q.pen_theta q.pen_radius)).applyC
          CoordF.null)

/-!
Helper lemmas about the vector/transform algebra.
-/

theorem Coordinate.add_def (a b : Coordinate) :
    a + b = ⟨a.x + b.x, a.y + b.y⟩ := rfl

theorem Coordinate.smul_def (a : Coordinate) (k : ℝ) :
    a * k = ⟨a.x * k, a.y * k⟩ := rfl

theorem Coordinate.sub_def (a b : Coordinate) :
    a - b = ⟨a.x - b.x, a.y - b.y⟩ := by
  show a + b * (-1 : ℝ) = _
  rw [Coordinate.smul_def, Coordinate.add_def]
  congr 1 <;> ring

theorem Transform2D.apply_def (t : Transform2D) (c : Coordinate) :
    t * c = ⟨t.matrix 0 0 * c.x + t.matrix 0 1 * c.y + t.matrix 0 2,
             t.matrix 1 0 * c.x + t.matrix 1 1 * c.y + t.matrix 1 2⟩ := rfl

theorem Transform2D.mul_matrix (a b : Transform2D) (i j : Fin 3) :
    (a * b).matrix i j =
      0 + a.matrix i 0 * b.matrix 0 j + a.matrix i 1 * b.matrix 1 j +
        a.matrix i 2 * b.matrix 2 j := rfl

/-- Every transform the program builds keeps the bottom row [0, 0, 1]. -/
theorem Transform2D.built_bottom_row {T : Transform2D} (h : T.Built) :
    T.matrix 2 0 = 0 ∧ T.matrix 2 1 = 0 ∧ T.matrix 2 2 = 1 := by
  induction h with
  | identity => refine ⟨?_, ?_, ?_⟩ <;> simp [Transform2D.identity, Matrix.vecHead, Matrix.vecTail]
  | rotation θ => refine ⟨?_, ?_, ?_⟩ <;> simp [Transform2D.rotation_xy, Matrix.vecHead, Matrix.vecTail]
  | translation v => refine ⟨?_, ?_, ?_⟩ <;> simp [Transform2D.translation, Matrix.vecHead, Matrix.vecTail]
  | mul hA hB ihA ihB =>
    obtain ⟨a0, a1, a2⟩ := ihA
    obtain ⟨b0, b1, b2⟩ := ihB
    refine ⟨?_, ?_, ?_⟩ <;>
      simp [Transform2D.mul_matrix, a0, a1, a2, b0, b1, b2]

/-- Matrix-point application distributes over a product whose right factor
has bottom row [0, 0, 1]. -/
theorem Transform2D.mul_apply_of_bottom (A B : Transform2D) (p : Coordinate)
    (h0 : B.matrix 2 0 = 0) (h1 : B.matrix 2 1 = 0) (h2 : B.matrix 2 2 = 1) :
    (A * B) * p = A * (B * p) := by
  ext <;>
    simp [Transform2D.apply_def, Transform2D.mul_matrix, h0, h1, h2] <;> ring

/-- The composite built by transform_for_wheel collapses to one translation
following one rotation. -/
theorem Transform2D.wheel_build_eq (w v : Coordinate) (θ : ℝ) :
    Transform2D.translation w * (Transform2D.translation v *
        (Transform2D.rotation_xy θ * Transform2D.identity)) =
      Transform2D.translation (v + w) * Transform2D.rotation_xy θ := by
  ext i j
  fin_cases i <;> fin_cases j <;>
    simp [Transform2D.mul_matrix, Transform2D.translation,
      Transform2D.rotation_xy, Transform2D.identity, Coordinate.add_def,
      Matrix.vecHead, Matrix.vecTail]

/-- Applying a translation-rotation composite to the origin yields the
translation vector. -/
theorem Transform2D.apply_null (c : Coordinate) (θ : ℝ) :
    (Transform2D.translation c * Transform2D.rotation_xy θ) * Coordinate.null
      = c := by
  ext <;>
    simp [Transform2D.apply_def, Transform2D.mul_matrix,
      Transform2D.translation, Transform2D.rotation_xy, Coordinate.null,
      Matrix.vecHead, Matrix.vecTail]

theorem Transform2D.translation_zero_rot_zero :
    Transform2D.translation ⟨0, 0⟩ * Transform2D.rotation_xy 0 =
      Transform2D.identity := by
  ext i j
  fin_cases i <;> fin_cases j <;>
    simp [Transform2D.mul_matrix, Transform2D.translation,
      Transform2D.rotation_xy, Transform2D.identity,
      Matrix.vecHead, Matrix.vecTail]

/-!
Helper lemmas about the periodic wrapping done with Rust's % operator.
-/

/-- The circle's wrap of s / perimeter into [0, 1) is the fractional part. -/
theorem rustRem_one_wrap (x : ℝ) :
    (if rustRem x 1 < 0 then rustRem x 1 + 1 else rustRem x 1)
      = Int.fract x := by
  unfold rustRem rtrunc
  rw [div_one, one_mul]
  by_cases hx : 0 ≤ x
  · rw [if_pos hx, if_neg (not_lt.mpr (sub_nonneg.mpr (Int.floor_le x)))]
    rfl
  · rw [if_neg hx]
    by_cases h2 : x - (⌈x⌉ : ℝ) < 0
    · rw [if_pos h2]
      have hfl : ⌊x⌋ = ⌈x⌉ - 1 := by
        rw [Int.floor_eq_iff]
        constructor
        · push_cast
          linarith [Int.ceil_lt_add_one x]
        · push_cast
          linarith
      rw [Int.fract, hfl]
      push_cast
      ring
    · rw [if_neg h2]
      have hge : (⌈x⌉ : ℝ) ≤ x := by linarith
      have hn : x = ((⌈x⌉ : ℤ) : ℝ) := le_antisymm (Int.le_ceil x) hge
      rw [hn, Int.ceil_intCast, Int.fract_intCast]
      ring

/-- The rod's wrap into [0, perimeter) is the scaled fractional part. -/
theorem rustRem_wrap (x P : ℝ) (hP : 0 < P) :
    (if rustRem x P < 0 then rustRem x P + P else rustRem x P)
      = P * Int.fract (x / P) := by
  have hP0 : P ≠ 0 := ne_of_gt hP
  have key : rustRem x P = P * rustRem (x / P) 1 := by
    unfold rustRem
    rw [div_one]
    field_simp
  rw [key]
  have hiff : P * rustRem (x / P) 1 < 0 ↔ rustRem (x / P) 1 < 0 := by
    constructor
    · intro h
      by_contra hc
      push_neg at hc
      nlinarith
    · intro h
      exact mul_neg_of_pos_of_neg hP h
  have base := rustRem_one_wrap (x / P)
  by_cases h : rustRem (x / P) 1 < 0
  · rw [if_pos (hiff.mpr h)]
    rw [if_pos h] at base
    rw [← base]
    ring
  · rw [if_neg (fun hc => h (hiff.mp hc))]
    rw [if_neg h] at base
    rw [base]

/-!
Closed forms for the circle's parametrization and finite-difference normal.
-/

/-- Circle::parametric in closed form: the point at angle s / r. -/
theorem circle_parametric (r s : ℝ) (hr : r ≠ 0) :
    Shape.parametric (.Circle r) s
      = ⟨r * Real.cos (s / r), r * Real.sin (s / r)⟩ := by
  have hπ : π ≠ 0 := Real.pi_ne_zero
  have key : Shape.parametric (.Circle r) s
      = ⟨r * Real.cos (2 * π * Int.fract (s / (2 * π * r))),
         r * Real.sin (2 * π * Int.fract (s / (2 * π * r)))⟩ := by
    show (let t0 := rustRem (s / (2 * π * r)) 1
          let t := if t0 < 0 then t0 + 1 else t0
          (⟨r * Real.cos (2 * π * t), r * Real.sin (2 * π * t)⟩ :
            Coordinate)) = _
    simp only [rustRem_one_wrap]
  rw [key]
  have h1 : 2 * π * Int.fract (s / (2 * π * r))
      = s / r + ((-⌊s / (2 * π * r)⌋ : ℤ) : ℝ) * (2 * π) := by
    rw [Int.fract]
    push_cast
    field_simp
    ring
  rw [h1, Real.cos_add_int_mul_two_pi, Real.sin_add_int_mul_two_pi]

/-- Normalising a positively scaled unit direction recovers the direction. -/
theorem normalised_scaled (A m : ℝ) (hA : 0 < A) :
    Coordinate.normalised ⟨A * Real.cos m, A * Real.sin m⟩
      = ⟨Real.cos m, Real.sin m⟩ := by
  have hmag : Real.sqrt ((A * Real.cos m) ^ 2 + (A * Real.sin m) ^ 2) = A := by
    rw [show (A * Real.cos m) ^ 2 + (A * Real.sin m) ^ 2 = A ^ 2 from by
      nlinarith [Real.sin_sq_add_cos_sq m]]
    exact Real.sqrt_sq hA.le
  simp only [Coordinate.normalised, Coordinate.magnitude]
  rw [hmag]
  congr 1 <;> rw [mul_comm, mul_div_assoc, div_self (ne_of_gt hA), mul_one]

/-- The six entries of a rotation matrix that matter to point
application. -/
theorem rotation_entries (θ : ℝ) :
    (Transform2D.rotation_xy θ).matrix 0 0 = Real.cos θ ∧
    (Transform2D.rotation_xy θ).matrix 0 1 = -Real.sin θ ∧
    (Transform2D.rotation_xy θ).matrix 0 2 = 0 ∧
    (Transform2D.rotation_xy θ).matrix 1 0 = Real.sin θ ∧
    (Transform2D.rotation_xy θ).matrix 1 1 = Real.cos θ ∧
    (Transform2D.rotation_xy θ).matrix 1 2 = 0 := by
  refine ⟨?_, ?_, ?_, ?_, ?_, ?_⟩ <;>
    simp [Transform2D.rotation_xy, Matrix.vecHead, Matrix.vecTail]

/-- The finite-difference normal of a circle is the radial unit vector at
the angle s / r shifted back by eps / (2 r). -/
theorem circle_normal (r s : ℝ) (hr : 0 < r) (hh : fdEps / (2 * r) < π) :
    Shape.normal_at (.Circle r) s
      = ⟨Real.cos (s / r - fdEps / (2 * r)),
         Real.sin (s / r - fdEps / (2 * r))⟩ := by
  have hr0 : r ≠ 0 := ne_of_gt hr
  have hεpos : (0 : ℝ) < fdEps := by norm_num [fdEps]
  have hpos : 0 < fdEps / (2 * r) := div_pos hεpos (by linarith)
  have hsin : 0 < Real.sin (fdEps / (2 * r)) :=
    Real.sin_pos_of_pos_of_lt_pi hpos hh
  have hbig : 0 < 2 * r * Real.sin (fdEps / (2 * r)) := by positivity
  unfold Shape.normal_at
  rw [circle_parametric r s hr0, circle_parametric r (s - fdEps) hr0,
    Coordinate.sub_def]
  have e1 : (s - fdEps) / r = s / r - fdEps / (2 * r) - fdEps / (2 * r) := by
    field_simp
    ring
  rw [e1]
  set h := fdEps / (2 * r) with hdef
  set m := s / r - h with hm
  have ecos : r * Real.cos (s / r) - r * Real.cos (s / r - h - h)
      = 2 * r * Real.sin h * -Real.sin m := by
    rw [show r * Real.cos (s / r) - r * Real.cos (s / r - h - h)
        = r * (Real.cos (s / r) - Real.cos (s / r - h - h)) from by ring,
      Real.cos_sub_cos,
      show (s / r + (s / r - h - h)) / 2 = m from by rw [hm]; ring,
      show (s / r - (s / r - h - h)) / 2 = h from by ring]
    ring
  have esin : r * Real.sin (s / r) - r * Real.sin (s / r - h - h)
      = 2 * r * Real.sin h * Real.cos m := by
    rw [show r * Real.sin (s / r) - r * Real.sin (s / r - h - h)
        = r * (Real.sin (s / r) - Real.sin (s / r - h - h)) from by ring,
      Real.sin_sub_sin,
      show (s / r - (s / r - h - h)) / 2 = h from by ring,
      show (s / r + (s / r - h - h)) / 2 = m from by rw [hm]; ring]
    ring
  rw [ecos, esin]
  have c1 : Real.cos (-π * 0.5) = 0 := by
    rw [show (-π * 0.5 : ℝ) = -(π / 2) from by ring, Real.cos_neg,
      Real.cos_pi_div_two]
  have s1 : Real.sin (-π * 0.5) = -1 := by
    rw [show (-π * 0.5 : ℝ) = -(π / 2) from by ring, Real.sin_neg,
      Real.sin_pi_div_two]
  have hrot :
      (⟨2 * r * Real.sin h * -Real.sin m, 2 * r * Real.sin h * Real.cos m⟩ :
        Coordinate).rotated (-π * 0.5)
      = ⟨2 * r * Real.sin h * Real.cos m, 2 * r * Real.sin h * Real.sin m⟩ := by
    obtain ⟨m00, m01, m02, m10, m11, m12⟩ := rotation_entries (-π * 0.5)
    unfold Coordinate.rotated
    rw [Transform2D.apply_def, m00, m01, m02, m10, m11, m12, c1, s1]
    congr 1 <;> ring
  rw [hrot, normalised_scaled _ m hbig]

/-- On a unit direction vector, atan2 recovers an angle with the same cosine
and sine as the direction's angle. -/
theorem heading_cos_sin (m : ℝ) :
    Real.cos (Coordinate.heading ⟨Real.cos m, Real.sin m⟩) = Real.cos m ∧
    Real.sin (Coordinate.heading ⟨Real.cos m, Real.sin m⟩) = Real.sin m := by
  have hz : (⟨Real.cos m, Real.sin m⟩ : ℂ) ≠ 0 := by
    intro h
    have h1 : Real.cos m = 0 := congrArg Complex.re h
    have h2 : Real.sin m = 0 := congrArg Complex.im h
    have h3 := Real.sin_sq_add_cos_sq m
    rw [h1, h2] at h3
    norm_num at h3
  have habs : Complex.abs ⟨Real.cos m, Real.sin m⟩ = 1 := by
    rw [Complex.abs_apply, Complex.normSq_mk,
      show Real.cos m * Real.cos m + Real.sin m * Real.sin m = 1 from by
        nlinarith [Real.sin_sq_add_cos_sq m]]
    exact Real.sqrt_one
  unfold Coordinate.heading
  constructor
  · rw [Complex.cos_arg hz, habs]
    simp
  · rw [Complex.sin_arg, habs]
    simp

/-- The rotation angle computed from two atan2 headings has the same sine
and cosine as the closed-form angle difference. -/
theorem cos_sin_heading_sub (m1 m2 c : ℝ) :
    Real.cos (Coordinate.heading ⟨Real.cos m1, Real.sin m1⟩ -
        Coordinate.heading ⟨Real.cos m2, Real.sin m2⟩ + c)
      = Real.cos (m1 - m2 + c) ∧
    Real.sin (Coordinate.heading ⟨Real.cos m1, Real.sin m1⟩ -
        Coordinate.heading ⟨Real.cos m2, Real.sin m2⟩ + c)
      = Real.sin (m1 - m2 + c) := by
  obtain ⟨hc1, hs1⟩ := heading_cos_sin m1
  obtain ⟨hc2, hs2⟩ := heading_cos_sin m2
  constructor <;>
    simp only [Real.cos_add, Real.sin_add, Real.cos_sub, Real.sin_sub,
      hc1, hs1, hc2, hs2]

/-- Rotation matrices agree whenever the angles have equal sine and
cosine. -/
theorem rotation_eq_of_cos_sin (α β : ℝ) (hc : Real.cos α = Real.cos β)
    (hs : Real.sin α = Real.sin β) :
    Transform2D.rotation_xy α = Transform2D.rotation_xy β := by
  unfold Transform2D.rotation_xy
  rw [hc, hs]

/-- The solver's transform, for unit normals at angles mg (guide) and
mw (wheel), a guide contact point at angle α and radius g, and a wheel
contact spoke at angle β and radius w: one translation following one
rotation, with the atan2 headings eliminated. -/
theorem wheel_closed_form_general (α β c mg mw g w : ℝ) :
    Transform2D.translation
        (Transform2D.rotation_xy
            (π + (Coordinate.heading ⟨Real.cos mg, Real.sin mg⟩ -
              Coordinate.heading ⟨Real.cos mw, Real.sin mw⟩ + c)) *
          (⟨w * Real.cos β, w * Real.sin β⟩ : Coordinate)) *
      (Transform2D.translation (⟨g * Real.cos α, g * Real.sin α⟩ : Coordinate) *
        (Transform2D.rotation_xy
            (Coordinate.heading ⟨Real.cos mg, Real.sin mg⟩ -
              Coordinate.heading ⟨Real.cos mw, Real.sin mw⟩ + c) *
          Transform2D.identity))
      = Transform2D.translation
          ⟨g * Real.cos α - w * Real.cos (mg - mw + c + β),
           g * Real.sin α - w * Real.sin (mg - mw + c + β)⟩ *
        Transform2D.rotation_xy (mg - mw + c) := by
  obtain ⟨hcθ, hsθ⟩ := cos_sin_heading_sub mg mw c
  set A := Coordinate.heading ⟨Real.cos mg, Real.sin mg⟩
  set B := Coordinate.heading ⟨Real.cos mw, Real.sin mw⟩
  rw [Transform2D.wheel_build_eq]
  have hrotc : Transform2D.rotation_xy (A - B + c)
      = Transform2D.rotation_xy (mg - mw + c) :=
    rotation_eq_of_cos_sin _ _ hcθ hsθ
  have hrotw : Transform2D.rotation_xy (π + (A - B + c)) *
      (⟨w * Real.cos β, w * Real.sin β⟩ : Coordinate)
      = ⟨-(w * Real.cos (mg - mw + c + β)),
         -(w * Real.sin (mg - mw + c + β))⟩ := by
    obtain ⟨m00, m01, m02, m10, m11, m12⟩ := rotation_entries (π + (A - B + c))
    rw [Transform2D.apply_def, m00, m01, m02, m10, m11, m12,
      Real.cos_add π (A - B + c), Real.sin_add π (A - B + c),
      Real.cos_pi, Real.sin_pi, hcθ, hsθ,
      Real.cos_add (mg - mw + c) β, Real.sin_add (mg - mw + c) β]
    congr 1 <;> ring
  rw [hrotw, hrotc, Coordinate.add_def]
  have hv : (⟨g * Real.cos α + -(w * Real.cos (mg - mw + c + β)),
      g * Real.sin α + -(w * Real.sin (mg - mw + c + β))⟩ : Coordinate)
      = ⟨g * Real.cos α - w * Real.cos (mg - mw + c + β),
         g * Real.sin α - w * Real.sin (mg - mw + c + β)⟩ := by
    congr 1
  rw [hv]

/-- transform_for_wheel for two circles rolling inside, in closed form: the
classical hypocycloid construction with both contact angles retarded by the
finite-difference offset eps / (2 radius) of the respective shape. -/
theorem transform_wheel_circles_inside (rw2 rg s : ℝ)
    (hw : 0 < rw2) (hg : 0 < rg)
    (hhw : fdEps / (2 * rw2) < π) (hhg : fdEps / (2 * rg) < π) :
    transform_for_wheel (.Circle rw2) (.Circle rg) true s
      = Transform2D.translation
          ⟨rg * Real.cos (s / rg) -
              rw2 * Real.cos (s / rg - fdEps / (2 * rg) + fdEps / (2 * rw2)),
           rg * Real.sin (s / rg) -
              rw2 * Real.sin (s / rg - fdEps / (2 * rg) + fdEps / (2 * rw2))⟩ *
        Transform2D.rotation_xy
          (s / rg - s / rw2 - fdEps / (2 * rg) + fdEps / (2 * rw2)) := by
  unfold transform_for_wheel
  simp only [if_true, ite_true, one_mul]
  rw [circle_normal rg s hg hhg, circle_normal rw2 s hw hhw,
    circle_parametric rg s (ne_of_gt hg),
    circle_parametric rw2 s (ne_of_gt hw),
    wheel_closed_form_general (s / rg) (s / rw2) 0
      (s / rg - fdEps / (2 * rg)) (s / rw2 - fdEps / (2 * rw2)) rg rw2]
  rw [show s / rg - fdEps / (2 * rg) - (s / rw2 - fdEps / (2 * rw2)) + 0 +
        s / rw2 = s / rg - fdEps / (2 * rg) + fdEps / (2 * rw2) from by ring,
    show s / rg - fdEps / (2 * rg) - (s / rw2 - fdEps / (2 * rw2)) + 0
      = s / rg - s / rw2 - fdEps / (2 * rg) + fdEps / (2 * rw2) from by ring]

/-- transform_for_wheel for two circles rolling outside, in closed form: the
classical epicycloid construction with the same finite-difference angle
offsets. -/
theorem transform_wheel_circles_outside (rw2 rg s : ℝ)
    (hw : 0 < rw2) (hg : 0 < rg)
    (hhw : fdEps / (2 * rw2) < π) (hhg : fdEps / (2 * rg) < π) :
    transform_for_wheel (.Circle rw2) (.Circle rg) false s
      = Transform2D.translation
          ⟨rg * Real.cos (s / rg) +
              rw2 * Real.cos (s / rg - fdEps / (2 * rg) + fdEps / (2 * rw2)),
           rg * Real.sin (s / rg) +
              rw2 * Real.sin (s / rg - fdEps / (2 * rg) + fdEps / (2 * rw2))⟩ *
        Transform2D.rotation_xy
          (s / rg + s / rw2 + π - fdEps / (2 * rg) + fdEps / (2 * rw2)) := by
  unfold transform_for_wheel
  simp only [Bool.false_eq_true, if_false, ite_false, neg_one_mul]
  rw [circle_normal rg s hg hhg, circle_normal rw2 (-s) hw hhw,
    circle_parametric rg s (ne_of_gt hg),
    circle_parametric rw2 (-s) (ne_of_gt hw),
    wheel_closed_form_general (s / rg) (-s / rw2) π
      (s / rg - fdEps / (2 * rg)) (-s / rw2 - fdEps / (2 * rw2)) rg rw2]
  rw [show s / rg - fdEps / (2 * rg) - (-s / rw2 - fdEps / (2 * rw2)) + π +
        -s / rw2
      = s / rg - fdEps / (2 * rg) + fdEps / (2 * rw2) + π from by ring,
    Real.cos_add_pi, Real.sin_add_pi,
    show s / rg - fdEps / (2 * rg) - (-s / rw2 - fdEps / (2 * rw2)) + π
      = s / rg + s / rw2 + π - fdEps / (2 * rg) + fdEps / (2 * rw2) from by
        ring]
  have hv : (⟨rg * Real.cos (s / rg) -
      rw2 * -Real.cos (s / rg - fdEps / (2 * rg) + fdEps / (2 * rw2)),
      rg * Real.sin (s / rg) -
      rw2 * -Real.sin (s / rg - fdEps / (2 * rg) + fdEps / (2 * rw2))⟩ :
        Coordinate)
      = ⟨rg * Real.cos (s / rg) +
          rw2 * Real.cos (s / rg - fdEps / (2 * rg) + fdEps / (2 * rw2)),
         rg * Real.sin (s / rg) +
          rw2 * Real.sin (s / rg - fdEps / (2 * rg) + fdEps / (2 * rw2))⟩ := by
    congr 1 <;> ring
  rw [hv]

/-!
Helper lemmas about the rod shape.
-/

theorem rodCapRadius_pos (m a : ℝ) (hm : 0 < m) (ha : 0 < a) :
    0 < rodCapRadius m a := by
  unfold rodCapRadius
  nlinarith

theorem rodSideLength_pos (m a : ℝ) (hm : 0 < m) (ha1 : a < 1) :
    0 < rodSideLength m a := by
  unfold rodSideLength
  nlinarith

theorem rodCapLength_pos (m a : ℝ) (hm : 0 < m) (ha : 0 < a) :
    0 < rodCapLength m a :=
  mul_pos Real.pi_pos (rodCapRadius_pos m a hm ha)

theorem rodPerimeter_pos (m a : ℝ) (hm : 0 < m) (ha : 0 < a) (ha1 : a < 1) :
    0 < rodPerimeter m a := by
  have h1 := rodCapRadius_pos m a hm ha
  have h2 := rodSideLength_pos m a hm ha1
  have h3 := Real.pi_pos
  unfold rodPerimeter
  nlinarith

/-- The rod's wrapped parameter is invariant under adding one perimeter. -/
theorem rodWrap_periodic (m a s : ℝ) (hP : 0 < rodPerimeter m a) :
    rodWrap m a (s + rodPerimeter m a) = rodWrap m a s := by
  have hP0 : rodPerimeter m a ≠ 0 := ne_of_gt hP
  simp only [rodWrap]
  rw [rustRem_wrap _ _ hP, rustRem_wrap _ _ hP]
  have e1 : (rodPerimeter m a + (s + rodPerimeter m a) - rodSideLength m a) /
        rodPerimeter m a
      = (rodPerimeter m a + s - rodSideLength m a) / rodPerimeter m a + 1 := by
    field_simp
    ring
  rw [e1, Int.fract_add_one]

theorem rodFromT_at_capLength (m a : ℝ) (hm : 0 < m) (ha1 : a < 1) :
    rodFromT m a (rodCapLength m a) = rodEdgeBottom m a (rodCapLength m a) := by
  have hsl := rodSideLength_pos m a hm ha1
  unfold rodFromT
  rw [if_neg (lt_irrefl _), if_pos (by linarith)]

theorem rodFromT_at_bottomEnd (m a : ℝ) (hm : 0 < m) (ha : 0 < a)
    (ha1 : a < 1) :
    rodFromT m a (rodCapLength m a + 2 * rodSideLength m a)
      = rodCapLeft m a (rodCapLength m a + 2 * rodSideLength m a) := by
  have hsl := rodSideLength_pos m a hm ha1
  have hcl := rodCapLength_pos m a hm ha
  unfold rodFromT
  rw [if_neg (not_lt.mpr (by linarith)), if_neg (lt_irrefl _),
    if_pos (by linarith)]

theorem rodFromT_at_leftEnd (m a : ℝ) (hm : 0 < m) (ha : 0 < a)
    (ha1 : a < 1) :
    rodFromT m a (2 * rodCapLength m a + 2 * rodSideLength m a)
      = rodEdgeTop m a (2 * rodCapLength m a + 2 * rodSideLength m a) := by
  have hsl := rodSideLength_pos m a hm ha1
  have hcl := rodCapLength_pos m a hm ha
  unfold rodFromT
  rw [if_neg (not_lt.mpr (by linarith)), if_neg (not_lt.mpr (by linarith)),
    if_neg (lt_irrefl _)]

theorem rodFromT_at_zero (m a : ℝ) (hm : 0 < m) (ha : 0 < a) :
    rodFromT m a 0 = rodCapRight m a 0 := by
  unfold rodFromT
  rw [if_pos (rodCapLength_pos m a hm ha)]

theorem rod_boundary_cap_bottom (m a : ℝ) (hm : 0 < m) (ha : 0 < a) :
    rodCapRight m a (rodCapLength m a)
      = rodEdgeBottom m a (rodCapLength m a) := by
  have hcr := ne_of_gt (rodCapRadius_pos m a hm ha)
  have harg : rodCapLength m a / rodCapRadius m a = π := by
    unfold rodCapLength
    field_simp
  unfold rodCapRight rodEdgeBottom
  rw [harg, Real.sin_pi, Real.cos_pi]
  unfold rodCapLength
  congr 1 <;> ring

theorem rod_boundary_bottom_cap (m a : ℝ) (hm : 0 < m) (ha : 0 < a) :
    rodEdgeBottom m a (rodCapLength m a + 2 * rodSideLength m a)
      = rodCapLeft m a (rodCapLength m a + 2 * rodSideLength m a) := by
  have hcr := ne_of_gt (rodCapRadius_pos m a hm ha)
  have harg : rodCapLength m a + 2 * rodSideLength m a -
      2 * rodSideLength m a = rodCapLength m a := by ring
  have harg2 : rodCapLength m a / rodCapRadius m a = π := by
    unfold rodCapLength
    field_simp
  unfold rodCapLeft rodEdgeBottom
  rw [harg, harg2, Real.sin_pi, Real.cos_pi]
  unfold rodCapLength
  congr 1 <;> ring

theorem rod_boundary_cap_top (m a : ℝ) (hm : 0 < m) (ha : 0 < a) :
    rodCapLeft m a (2 * rodCapLength m a + 2 * rodSideLength m a)
      = rodEdgeTop m a (2 * rodCapLength m a + 2 * rodSideLength m a) := by
  have hcr := ne_of_gt (rodCapRadius_pos m a hm ha)
  have harg : 2 * rodCapLength m a + 2 * rodSideLength m a -
      2 * rodSideLength m a = 2 * rodCapLength m a := by ring
  have harg2 : 2 * rodCapLength m a / rodCapRadius m a = 2 * π := by
    unfold rodCapLength
    field_simp
    ring
  unfold rodCapLeft rodEdgeTop
  rw [harg, harg2, Real.sin_two_pi, Real.cos_two_pi]
  unfold rodCapLength
  congr 1 <;> ring

theorem rod_boundary_top_cap (m a : ℝ) :
    rodEdgeTop m a (rodPerimeter m a) = rodCapRight m a 0 := by
  unfold rodEdgeTop rodCapRight rodPerimeter
  rw [zero_div, Real.sin_zero, Real.cos_zero]
  congr 1 <;> ring

theorem needs_param_iff (st : ShapeType) :
    st.needs_param = true ↔ st = ShapeType.Rod := by
  cases st <;> simp [ShapeType.needs_param]

/-- route_pattern errors exactly on the validation conditions, and otherwise
produces the 300-point pattern. -/
theorem route_pattern_char (q : PatternQuery) :
    ((∃ msg, route_pattern q = Except.error msg) ↔ specViolation q) ∧
    (¬ specViolation q →
      ∃ pts, route_pattern q = Except.ok pts ∧ pts.length = 300) := by
  simp only [route_pattern]
  split_ifs with h1 h2 h3 h4 h5 h6 h7
  · have hv : specViolation q := by
      rw [Bool.and_eq_true, Option.isNone_iff_eq_none, needs_param_iff] at h1
      exact Or.inl ⟨h1.2, h1.1⟩
    exact ⟨⟨fun _ => hv, fun _ => ⟨_, rfl⟩⟩, fun hn => absurd hv hn⟩
  · have hv : specViolation q := by
      rw [Bool.and_eq_true, Option.isNone_iff_eq_none, needs_param_iff] at h2
      exact Or.inr (Or.inl ⟨h2.2, h2.1⟩)
    exact ⟨⟨fun _ => hv, fun _ => ⟨_, rfl⟩⟩, fun hn => absurd hv hn⟩
  · have hv : specViolation q := by
      rcases h3 with h | h
      · exact Or.inr (Or.inr (Or.inl h))
      · exact Or.inr (Or.inr (Or.inr (Or.inl h)))
    exact ⟨⟨fun _ => hv, fun _ => ⟨_, rfl⟩⟩, fun hn => absurd hv hn⟩
  · have hv : specViolation q := by
      rcases h4 with h | h
      · exact Or.inr (Or.inr (Or.inr (Or.inr (Or.inl h))))
      · exact Or.inr (Or.inr (Or.inr (Or.inr (Or.inr (Or.inl h)))))
    exact ⟨⟨fun _ => hv, fun _ => ⟨_, rfl⟩⟩, fun hn => absurd hv hn⟩
  · have hv : specViolation q := by
      rcases h5 with h | h
      · exact Or.inr (Or.inr (Or.inr (Or.inr (Or.inr (Or.inr (Or.inl h))))))
      · exact Or.inr (Or.inr (Or.inr (Or.inr (Or.inr (Or.inr (Or.inr
          (Or.inl h)))))))
    exact ⟨⟨fun _ => hv, fun _ => ⟨_, rfl⟩⟩, fun hn => absurd hv hn⟩
  · have hv : specViolation q := by
      rcases h6 with h | h
      · exact Or.inr (Or.inr (Or.inr (Or.inr (Or.inr (Or.inr (Or.inr
          (Or.inr (Or.inl h))))))))
      · exact Or.inr (Or.inr (Or.inr (Or.inr (Or.inr (Or.inr (Or.inr
          (Or.inr (Or.inr (Or.inl h)))))))))
    exact ⟨⟨fun _ => hv, fun _ => ⟨_, rfl⟩⟩, fun hn => absurd hv hn⟩
  · have hv : specViolation q :=
      Or.inr (Or.inr (Or.inr (Or.inr (Or.inr (Or.inr (Or.inr (Or.inr
        (Or.inr (Or.inr h7)))))))))
    exact ⟨⟨fun _ => hv, fun _ => ⟨_, rfl⟩⟩, fun hn => absurd hv hn⟩
  · constructor
    · constructor
      · rintro ⟨msg, hmsg⟩
        exact absurd hmsg (by simp)
      · intro hv
        exfalso
        rw [Bool.and_eq_true, Option.isNone_iff_eq_none, needs_param_iff]
          at h1 h2
        push_neg at h3 h4 h5 h6
        rcases hv with ⟨hg, hp⟩ | ⟨hw, hp⟩ | h | h | h | h | h | h | h | h |
          hfit
        · exact h1 ⟨hp, hg⟩
        · exact h2 ⟨hp, hw⟩
        · exact absurd h (not_le.mpr h3.1)
        · exact absurd h (not_le.mpr h3.2)
        · exact absurd h (not_le.mpr h4.1)
        · exact absurd h (not_le.mpr h4.2)
        · exact absurd h (not_lt.mpr h5.1)
        · exact absurd h (not_lt.mpr h5.2)
        · exact absurd h (not_lt.mpr h6.1)
        · exact absurd h (not_lt.mpr h6.2)
        · exact h7 hfit
    · intro _
      refine ⟨_, rfl, ?_⟩
      rw [List.length_map, List.length_range]

/-- Rust's clamp into [0, 1] is the mathematical clamp. -/
theorem rustClamp_eq (x : ℝ) : rustClamp x 0 1 = max 0 (min x 1) := by
  unfold rustClamp
  split_ifs with h1 h2
  · rw [min_eq_left (by linarith), max_eq_left (by linarith)]
  · rw [min_eq_right (by linarith), max_eq_right (by linarith)]
  · push_neg at h1 h2
    rw [min_eq_left h2, max_eq_right h1]

/-- A rod wheel's maximum curvature radius always exceeds any constructed
guide's minimum curvature radius. -/
theorem fit_lt_of_rod (st : ShapeType) (gr p wr wp : ℝ) :
    (st.to_shape gr p).min_radius < (ShapeType.Rod.to_shape wr wp).max_radius := by
  cases st <;>
    simp [ShapeType.to_shape, Shape.min_radius, Shape.max_radius]

/-- When every earlier validation check passes, a Rod wheel with inside set
is stopped by the fit check. -/
theorem route_pattern_rod_inside_fit (q : PatternQuery)
    (hRod : q.wheel = ShapeType.Rod) (hin : q.inside.getD false = true)
    (hgp : q.guide = ShapeType.Rod → q.guide_param ≠ none)
    (hwp : q.wheel_param ≠ none)
    (hgr : 0 < q.guide_radius) (hwr : 0 < q.wheel_radius)
    (hgp2 : 0 < q.guide_param.getD 1) (hwp2 : 0 < q.wheel_param.getD 1)
    (hpr1 : 0 ≤ q.pen_radius) (hpr2 : q.pen_radius ≤ 1)
    (hpt1 : 0 ≤ q.pen_theta) (hpt2 : q.pen_theta ≤ 2 * π) :
    route_pattern q = Except.error "wheel does not fit inside guide" := by
  have c1 : ¬(q.guide_param.isNone && q.guide.needs_param) = true := by
    rw [Bool.and_eq_true, Option.isNone_iff_eq_none, needs_param_iff]
    rintro ⟨hnone, hrod⟩
    exact hgp hrod hnone
  have c2 : ¬(q.wheel_param.isNone && q.wheel.needs_param) = true := by
    rw [Bool.and_eq_true, Option.isNone_iff_eq_none]
    rintro ⟨hnone, _⟩
    exact hwp hnone
  have c3 : ¬(q.guide_radius ≤ 0 ∨ q.wheel_radius ≤ 0) := by
    push_neg
    exact ⟨hgr, hwr⟩
  have c4 : ¬(q.guide_param.getD 1 ≤ 0 ∨ q.wheel_param.getD 1 ≤ 0) := by
    push_neg
    exact ⟨hgp2, hwp2⟩
  have c5 : ¬(q.pen_radius < 0 ∨ q.pen_radius > 1) := by
    push_neg
    exact ⟨hpr1, hpr2⟩
  have c6 : ¬(q.pen_theta < 0 ∨ q.pen_theta > 2 * π) := by
    push_neg
    exact ⟨hpt1, hpt2⟩
  have c7 : q.inside.getD false = true ∧
      (q.guide.to_shape q.guide_radius (q.guide_param.getD 1)).min_radius <
        (q.wheel.to_shape q.wheel_radius (q.wheel_param.getD 1)).max_radius := by
    refine ⟨hin, ?_⟩
    rw [hRod]
    exact fit_lt_of_rod q.guide q.guide_radius (q.guide_param.getD 1)
      q.wheel_radius (q.wheel_param.getD 1)
  simp only [route_pattern]
  rw [if_neg c1, if_neg c2, if_neg c3, if_neg c4, if_neg c5, if_neg c6,
    if_pos c7]

/-!
NaN propagation in the floating-point model.
-/

theorem Fp.lt_nan_left (x : Fp) : Fp.lt .nan x = False := by
  cases x <;> rfl

theorem Fp.lt_nan_right (x : Fp) : Fp.lt x .nan = False := by
  cases x <;> rfl

theorem Fp.mul_nan_right (x : Fp) : Fp.mul x .nan = .nan := by
  cases x <;> rfl

theorem Fp.add_nan_right (x : Fp) : Fp.add x .nan = .nan := by
  cases x <;> rfl

theorem Fp.add_nan_left (x : Fp) : Fp.add .nan x = .nan := by
  cases x <;> rfl

/-- Rust's clamp returns NaN unchanged: both of its comparisons are false. -/
theorem Fp.clamp_nan (lo hi : Fp) : Fp.clamp .nan lo hi = .nan := by
  simp [Fp.clamp, Fp.lt_nan_left, Fp.lt_nan_right]

/-- A NaN pen radius turns the pen transform into a translation by a NaN
vector. -/
theorem transform_for_penF_nan (wheel : ShapeF) (θ : Fp) :
    transform_for_penF wheel θ .nan
      = TransformF.translation ⟨.nan, .nan⟩ := by
  unfold transform_for_penF
  rw [Fp.clamp_nan]
  unfold CoordF.smul
  rw [Fp.mul_nan_right, Fp.mul_nan_right]

/-- Composing any transform with a NaN translation and applying the result
to the origin yields NaN coordinates. -/
theorem applyC_mulT_translation_nan (W : TransformF) :
    (TransformF.mulT W (TransformF.translation ⟨.nan, .nan⟩)).applyC
        CoordF.null
      = ⟨.nan, .nan⟩ := by
  unfold TransformF.applyC TransformF.mulT TransformF.translation CoordF.null
  simp [Matrix.vecHead, Matrix.vecTail, Fp.mul_nan_right, Fp.add_nan_right,
    Fp.add_nan_left]

/-- C3: for every valid shape (a circle of positive radius, or a rod with
positive major radius and aspect ratio in (0, 1)) and every real s, including
negative s, parametric (s + perimeter) equals parametric s exactly in real
arithmetic: parametric is periodic with period perimeter and wraps correctly
for negative inputs. -/
theorem parametric_periodic (sh : Shape) (hsh : sh.Valid) (s : ℝ) :
    sh.parametric (s + sh.perimeter) = sh.parametric s := by
  cases sh with
  | Circle r =>
    have hr : (0 : ℝ) < r := hsh
    have hr0 : r ≠ 0 := ne_of_gt hr
    show Shape.parametric (.Circle r) (s + Shape.perimeter (.Circle r)) = _
    have hper : Shape.perimeter (.Circle r) = 2 * π * r := rfl
    rw [hper, circle_parametric r (s + 2 * π * r) hr0,
      circle_parametric r s hr0,
      show (s + 2 * π * r) / r = s / r + 2 * π from by field_simp,
      Real.cos_add_two_pi, Real.sin_add_two_pi]
  | Rod m a =>
    obtain ⟨hm, ha, ha1⟩ := hsh
    have hP := rodPerimeter_pos m a hm ha ha1
    show Shape.parametric (.Rod m a) (s + Shape.perimeter (.Rod m a)) = _
    have hper : Shape.perimeter (.Rod m a) = rodPerimeter m a := rfl
    rw [hper]
    show rodFromT m a (rodWrap m a (s + rodPerimeter m a)) = _
    rw [rodWrap_periodic m a s hP]
    rfl

/-!
The claims.
-/

/-- C1 (counterexample): with wheel Circle 1, guide Circle 2, inside, at
arc-length 0, the wheel centre produced by transform_for_wheel is not the
classical hypocycloid centre at distance 2 - 1 from the origin along the
radial direction at angle 0 / 2: the finite-difference normal shifts it. -/
theorem transform_for_wheel_circles_not_exact :
    (transform_for_wheel (.Circle 1) (.Circle 2) true 0) * Coordinate.null ≠
      (⟨(2 - 1) * Real.cos (0 / 2), (2 - 1) * Real.sin (0 / 2)⟩ :
        Coordinate) := by
  have hπ3 := Real.pi_gt_three
  rw [transform_wheel_circles_inside 1 2 0 (by norm_num) (by norm_num)
      (by norm_num [fdEps]; linarith) (by norm_num [fdEps]; linarith),
    Transform2D.apply_null]
  intro hEq
  rw [Coordinate.mk.injEq] at hEq
  have hy := hEq.2
  rw [show (0 : ℝ) / 2 = 0 from by norm_num, Real.sin_zero] at hy
  rw [show (0 : ℝ) - fdEps / (2 * 2) + fdEps / (2 * 1) = fdEps / 4 from by
      norm_num [fdEps]] at hy
  have hs : 0 < Real.sin (fdEps / 4) :=
    Real.sin_pos_of_pos_of_lt_pi (by norm_num [fdEps])
      (by norm_num [fdEps]; linarith)
  norm_num at hy
  linarith

/-- C1 (amended): for circles, transform_for_wheel reproduces the classical
epicycloid/hypocycloid construction with each contact angle retarded by the
finite-difference offset eps / (2 radius) of its shape: the wheel centre sits
at the guide point at angle s / rg displaced by rw along the direction at
angle s / rg - eps / (2 rg) + eps / (2 rw) (inward when inside, outward when
outside), and the rotation is the no-slip angle shifted by the same two
offsets.  It equals the exact classical closed form only when the two
offsets cancel (rw = rg). -/
theorem transform_for_wheel_circles_closed_form (rw2 rg s : ℝ)
    (inside : Bool) (hw : 0 < rw2) (hg : 0 < rg)
    (hhw : fdEps / (2 * rw2) < π) (hhg : fdEps / (2 * rg) < π) :
    transform_for_wheel (.Circle rw2) (.Circle rg) inside s
      = Transform2D.translation
          ⟨rg * Real.cos (s / rg) + (if inside then -1 else 1) *
              (rw2 * Real.cos (s / rg - fdEps / (2 * rg) + fdEps / (2 * rw2))),
           rg * Real.sin (s / rg) + (if inside then -1 else 1) *
              (rw2 * Real.sin (s / rg - fdEps / (2 * rg) + fdEps / (2 * rw2)))⟩
        * Transform2D.rotation_xy
          ((if inside then s / rg - s / rw2 else s / rg + s / rw2 + π) -
            fdEps / (2 * rg) + fdEps / (2 * rw2)) := by
  cases inside
  · rw [transform_wheel_circles_outside rw2 rg s hw hg hhw hhg]
    simp only [Bool.false_eq_true, if_false, ite_false, one_mul]
  · rw [transform_wheel_circles_inside rw2 rg s hw hg hhw hhg]
    simp only [if_true, ite_true, neg_one_mul, ← sub_eq_add_neg]

/-- C1 (witness): the amended closed form at wheel Circle 1, guide Circle 2,
inside, s = 3. -/
theorem transform_for_wheel_circles_closed_form_witness :
    transform_for_wheel (.Circle 1) (.Circle 2) true 3
      = Transform2D.translation
          ⟨2 * Real.cos (3 / 2) + (if true then -1 else 1) *
              (1 * Real.cos (3 / 2 - fdEps / (2 * 2) + fdEps / (2 * 1))),
           2 * Real.sin (3 / 2) + (if true then -1 else 1) *
              (1 * Real.sin (3 / 2 - fdEps / (2 * 2) + fdEps / (2 * 1)))⟩
        * Transform2D.rotation_xy
          ((if true then 3 / 2 - 3 / 1 else 3 / 2 + 3 / 1 + π) -
            fdEps / (2 * 2) + fdEps / (2 * 1)) :=
  transform_for_wheel_circles_closed_form 1 2 3 true (by norm_num)
    (by norm_num)
    (by have := Real.pi_gt_three; norm_num [fdEps]; linarith)
    (by have := Real.pi_gt_three; norm_num [fdEps]; linarith)

/-- C5: with guide = wheel = Circle r and inside set, the rolling-contact
transform is exactly the identity matrix: zero net rotation and zero net
translation, for every radius r > 0 and every arc-length s. -/
theorem concentric_circle_identity (r s : ℝ) (hr : 0 < r) :
    transform_for_wheel (.Circle r) (.Circle r) true s
      = Transform2D.identity := by
  unfold transform_for_wheel
  simp only [if_true, ite_true, one_mul]
  rw [add_zero, sub_self, add_zero, Transform2D.wheel_build_eq]
  generalize Shape.parametric (.Circle r) s = P
  ext i j
  fin_cases i <;> fin_cases j <;>
    simp [Transform2D.mul_matrix, Transform2D.translation,
      Transform2D.rotation_xy, Transform2D.identity, Transform2D.apply_def,
      Coordinate.add_def, Matrix.vecHead, Matrix.vecTail,
      Real.cos_pi, Real.sin_pi, Real.cos_zero, Real.sin_zero]

/-- C5 (witness): the concentric case at r = 1, s = 5. -/
theorem concentric_circle_identity_witness :
    transform_for_wheel (.Circle 1) (.Circle 1) true 5
      = Transform2D.identity :=
  concentric_circle_identity 1 5 (by norm_num)

/-- C6: for transforms built from identity, rotation_xy, translation or
products of these, applying a composed transform equals applying the
operands in sequence, right operand first. -/
theorem composed_apply_eq_sequential (A B : Transform2D)
    (hA : A.Built) (hB : B.Built) (p : Coordinate) :
    (A * B) * p = A * (B * p) := by
  obtain ⟨b0, b1, b2⟩ := Transform2D.built_bottom_row hB
  exact Transform2D.mul_apply_of_bottom A B p b0 b1 b2

/-- C6 (witness): a rotation composed with a translation, applied to a
concrete point. -/
theorem composed_apply_eq_sequential_witness :
    (Transform2D.rotation_xy 1 * Transform2D.translation ⟨2, 3⟩) *
        (⟨4, 5⟩ : Coordinate)
      = Transform2D.rotation_xy 1 *
        (Transform2D.translation ⟨2, 3⟩ * (⟨4, 5⟩ : Coordinate)) :=
  composed_apply_eq_sequential _ _ (Transform2D.Built.rotation 1)
    (Transform2D.Built.translation ⟨2, 3⟩) ⟨4, 5⟩

/-- C7: transform_for_pen is a pure translation by the wheel's boundary
point at arc-length theta / (2 pi) times the perimeter, scaled by the pen
radius clamped into [0, 1]. -/
theorem transform_for_pen_pure_translation (wheel : Shape)
    (theta radius : ℝ) :
    transform_for_pen wheel theta radius
      = Transform2D.translation
          (wheel.parametric (theta / (2 * π) * wheel.perimeter) *
            max 0 (min radius 1)) := by
  unfold transform_for_pen
  rw [rustClamp_eq]
  have hπ : (π : ℝ) ≠ 0 := Real.pi_ne_zero
  rw [show 0.5 * theta / π * wheel.perimeter
      = theta / (2 * π) * wheel.perimeter from by field_simp; ring]

/-- C8: every transform the program builds keeps bottom row [0, 0, 1];
point application then commutes with composition; and it does not for an
arbitrary 3 by 3 matrix such as null(), whose bottom row is zero. -/
theorem transform_bottom_row_invariant :
    (∀ T : Transform2D, T.Built →
      T.matrix 2 0 = 0 ∧ T.matrix 2 1 = 0 ∧ T.matrix 2 2 = 1) ∧
    (∀ (A B : Transform2D) (p : Coordinate),
      B.matrix 2 0 = 0 → B.matrix 2 1 = 0 → B.matrix 2 2 = 1 →
      (A * B) * p = A * (B * p)) ∧
    (Transform2D.translation ⟨1, 0⟩ * Transform2D.nullT) * Coordinate.null ≠
      Transform2D.translation ⟨1, 0⟩ *
        (Transform2D.nullT * Coordinate.null) := by
  refine ⟨fun T h => Transform2D.built_bottom_row h,
    fun A B p h0 h1 h2 => Transform2D.mul_apply_of_bottom A B p h0 h1 h2, ?_⟩
  intro hEq
  rw [Coordinate.mk.injEq] at hEq
  have hx := hEq.1
  simp [Transform2D.apply_def, Transform2D.mul_matrix,
    Transform2D.translation, Transform2D.nullT, Coordinate.null,
    Matrix.vecHead, Matrix.vecTail] at hx

/-- C2: route_pattern returns an error exactly when the request violates one
of the validation conditions (missing Rod parameter, non-positive radius or
shape parameter, pen radius outside [0, 1], pen angle outside [0, 2 pi], or
an infeasible inside fit), and otherwise returns an ordered sequence of
exactly 300 points. -/
theorem route_pattern_error_iff (q : PatternQuery) :
    ((∃ msg, route_pattern q = Except.error msg) ↔ specViolation q) ∧
    (¬ specViolation q →
      ∃ pts, route_pattern q = Except.ok pts ∧ pts.length = 300) :=
  route_pattern_char q

/-- C2 (witness): a plain circle-on-circle request passes validation and
yields 300 points. -/
theorem route_pattern_error_iff_witness :
    ¬ specViolation ⟨ShapeType.Circle, ShapeType.Circle, 1, 1, 0, 0, none,
        none, none⟩ ∧
    ∃ pts, route_pattern ⟨ShapeType.Circle, ShapeType.Circle, 1, 1, 0, 0,
        none, none, none⟩ = Except.ok pts ∧ pts.length = 300 := by
  have hnv : ¬ specViolation ⟨ShapeType.Circle, ShapeType.Circle, 1, 1, 0, 0,
      none, none, none⟩ := by
    intro hv
    unfold specViolation at hv
    dsimp only at hv
    rcases hv with ⟨h, _⟩ | ⟨h, _⟩ | h | h | h | h | h | h | h | h | ⟨h, _⟩ <;>
      first
        | exact ShapeType.noConfusion h
        | exact absurd h (not_lt.mpr (by positivity))
        | norm_num [Option.getD_none] at h
  exact ⟨hnv, (route_pattern_error_iff _).2 hnv⟩

/-- C3 (witness): the circle of radius 1 at the negative arc-length -1. -/
theorem parametric_periodic_witness :
    Shape.Valid (.Circle 1) ∧
    Shape.parametric (.Circle 1) (-1 + Shape.perimeter (.Circle 1))
      = Shape.parametric (.Circle 1) (-1) :=
  ⟨by norm_num [Shape.Valid],
   parametric_periodic (.Circle 1) (by norm_num [Shape.Valid]) (-1)⟩

/-- C4: for every rod with positive major radius and aspect ratio in (0, 1),
the four closed-form branches of Rod::parametric agree at every segment
boundary of the wrapped parameter: right cap to bottom edge at cap_length,
bottom edge to left cap at cap_length + 2 side_length, left cap to top edge
at 2 cap_length + 2 side_length, and top edge wrapping to the right cap at
the perimeter. -/
theorem rod_parametric_boundaries (m a : ℝ) (hm : 0 < m) (ha : 0 < a)
    (ha1 : a < 1) :
    rodCapRight m a (rodCapLength m a) = rodFromT m a (rodCapLength m a) ∧
    rodEdgeBottom m a (rodCapLength m a + 2 * rodSideLength m a)
      = rodFromT m a (rodCapLength m a + 2 * rodSideLength m a) ∧
    rodCapLeft m a (2 * rodCapLength m a + 2 * rodSideLength m a)
      = rodFromT m a (2 * rodCapLength m a + 2 * rodSideLength m a) ∧
    rodEdgeTop m a (rodPerimeter m a) = rodFromT m a 0 := by
  refine ⟨?_, ?_, ?_, ?_⟩
  · rw [rodFromT_at_capLength m a hm ha1]
    exact rod_boundary_cap_bottom m a hm ha
  · rw [rodFromT_at_bottomEnd m a hm ha ha1]
    exact rod_boundary_bottom_cap m a hm ha
  · rw [rodFromT_at_leftEnd m a hm ha ha1]
    exact rod_boundary_cap_top m a hm ha
  · rw [rodFromT_at_zero m a hm ha]
    exact rod_boundary_top_cap m a

/-- C4 (witness): the spec's example rod, major_radius 2 and aspect ratio
0.3. -/
theorem rod_parametric_boundaries_witness :
    rodCapRight 2 0.3 (rodCapLength 2 0.3)
        = rodFromT 2 0.3 (rodCapLength 2 0.3) ∧
    rodEdgeBottom 2 0.3 (rodCapLength 2 0.3 + 2 * rodSideLength 2 0.3)
      = rodFromT 2 0.3 (rodCapLength 2 0.3 + 2 * rodSideLength 2 0.3) ∧
    rodCapLeft 2 0.3 (2 * rodCapLength 2 0.3 + 2 * rodSideLength 2 0.3)
      = rodFromT 2 0.3 (2 * rodCapLength 2 0.3 + 2 * rodSideLength 2 0.3) ∧
    rodEdgeTop 2 0.3 (rodPerimeter 2 0.3) = rodFromT 2 0.3 0 :=
  rod_parametric_boundaries 2 0.3 (by norm_num) (by norm_num) (by norm_num)

/-- C9: validation does not reject NaN.  For the request with both shapes
circles of radius 1, pen_theta 0 and pen_radius NaN, every range check
comparison is false, the request is accepted, and all 300 returned points
have NaN coordinates. -/
theorem route_patternF_nan_accepted :
    (Fp.lt Fp.nan (Fp.num 0) = False) ∧ (Fp.lt (Fp.num 1) Fp.nan = False) ∧
    ∃ pts,
      route_patternF ⟨ShapeType.Circle, ShapeType.Circle, Fp.num 1, Fp.num 1,
          Fp.nan, Fp.num 0, none, none, none⟩ = Except.ok pts ∧
        pts.length = 300 ∧
        List.map CoordF.x pts = List.replicate 300 Fp.nan := by
  refine ⟨Fp.lt_nan_left _, Fp.lt_nan_right _, ?_⟩
  simp only [route_patternF]
  rw [if_neg (by simp [ShapeType.needs_param]),
    if_neg (by simp [ShapeType.needs_param]),
    if_neg (by norm_num [Fp.le]),
    if_neg (by norm_num [Fp.le, Option.getD_none]),
    if_neg (by simp [Fp.lt_nan_left, Fp.lt_nan_right]),
    if_neg (by simp [Fp.lt]; positivity),
    if_neg (by simp)]
  refine ⟨_, rfl, ?_, ?_⟩
  · rw [List.length_map, List.length_range]
  · rw [List.map_map]
    refine List.eq_replicate_iff.2 ⟨?_, ?_⟩
    · rw [List.length_map, List.length_range]
    · intro b hb
      rw [List.mem_map] at hb
      obtain ⟨i, hi, rfl⟩ := hb
      simp only [Function.comp_apply]
      rw [transform_for_penF_nan, applyC_mulT_translation_nan]

/-- C10: a Rod wheel can never roll inside any guide.  Every request with a
Rod wheel and inside set is rejected, and whenever it passes the earlier
validation checks the rejection is the fit check's message. -/
theorem rod_wheel_never_rolls_inside (q : PatternQuery)
    (hRod : q.wheel = ShapeType.Rod) (hin : q.inside.getD false = true) :
    (∃ msg, route_pattern q = Except.error msg) ∧
    ((q.guide = ShapeType.Rod → q.guide_param ≠ none) →
      q.wheel_param ≠ none → 0 < q.guide_radius → 0 < q.wheel_radius →
      0 < q.guide_param.getD 1 → 0 < q.wheel_param.getD 1 →
      0 ≤ q.pen_radius → q.pen_radius ≤ 1 →
      0 ≤ q.pen_theta → q.pen_theta ≤ 2 * π →
      route_pattern q = Except.error "wheel does not fit inside guide") := by
  constructor
  · have hv : specViolation q :=
      Or.inr (Or.inr (Or.inr (Or.inr (Or.inr (Or.inr (Or.inr (Or.inr
        (Or.inr (Or.inr ⟨hin, by
          rw [hRod]
          exact fit_lt_of_rod q.guide q.guide_radius (q.guide_param.getD 1)
            q.wheel_radius (q.wheel_param.getD 1)⟩)))))))))
    exact (route_pattern_char q).1.mpr hv
  · intro hgp hwp hgr hwr hgp2 hwp2 hpr1 hpr2 hpt1 hpt2
    exact route_pattern_rod_inside_fit q hRod hin hgp hwp hgr hwr hgp2 hwp2
      hpr1 hpr2 hpt1 hpt2

/-- C10 (witness): a Rod wheel of radius 1 with aspect ratio 0.5 inside a
circle guide is rejected. -/
theorem rod_wheel_never_rolls_inside_witness :
    ∃ msg, route_pattern ⟨ShapeType.Circle, ShapeType.Rod, 1, 1, 0, 0, none,
      some 0.5, some true⟩ = Except.error msg :=
  (rod_wheel_never_rolls_inside ⟨ShapeType.Circle, ShapeType.Rod, 1, 1, 0, 0,
    none, some 0.5, some true⟩ rfl rfl).1
